import Mathlib

/-!
Shallow embedding of the Certificate Lifecycle & Policy Compliance Engine
of the Crypto-Agent-Architecture repository (files
`Running-Agent/pki_plugin.py`, `Running-Agent/policy_plugin.py`,
`Running-Agent/crypto_plugin.py`), together with theorems settling the
frozen specification claims.

Modelling conventions:
- Timestamps are integers at day granularity (`datetime.utcnow()` becomes an
  explicit `now : Int` argument; `timedelta(days=d)` becomes `+ d`).
- `x509.random_serial_number()` becomes an explicit `serial : Nat` argument:
  the random draw is an input of the operation.
- A Python `dict` is an association list in insertion order; assignment
  `d[k] = v` overwrites in place when `k` is present, else appends.
- Result dictionaries become per-operation inductive result types; the
  `success = False` dictionaries become error constructors.
- Stored status is the literal Python string (`"active"`, `"revoked"`,
  `"superseded"`), not an enumeration, so that which strings can ever be
  stored is a provable invariant rather than a typing assumption.
-/

namespace CryptoAgent

/-- An X.509 certificate as built by `x509.CertificateBuilder` in
`issue_certificate` / `renew_certificate`: the fields the claims mention. -/
structure Certificate where
  serialNumber : Nat
  subject : String
  issuer : String
  publicKey : Nat
  notBefore : Int
  notAfter : Int
  deriving DecidableEq

/-- The per-certificate dictionary stored in `PKIMCPPlugin.certificates`.
Keys added only on some paths (`renewed_from`, `superseded_by`, `revoked_at`,
`revocation_reason`) are `Option`s. The stored `status` is a string. -/
structure CertData where
  certificate : Certificate
  status : String
  issuedAt : Int
  expiresAt : Int
  subject : String
  renewedFrom : Option String
  supersededBy : Option String
  revokedAt : Option Int
  revocationReason : Option String
  deriving DecidableEq

/-- One entry of `PKIMCPPlugin.operation_log`, as appended by
`_log_operation(operation, details)`; detail values are rendered to strings. -/
structure LogEntry where
  timestamp : Int
  operation : String
  details : List (String × String)
  deriving DecidableEq

/-- A certificate signing request as consumed by `issue_certificate`:
subject, public key, and the `is_signature_valid` flag. -/
structure CSR where
  subject : String
  publicKey : Nat
  sigValid : Bool
  deriving DecidableEq

/-- The mutable state of `PKIMCPPlugin`: the certificate dictionary (in
insertion order), the CA subject name, and the operation log. -/
structure PKIState where
  certificates : List (String × CertData)
  caSubject : String
  operationLog : List LogEntry
  deriving DecidableEq

/-- Lookup of `certificates[cert_id]` (first occurrence of the key). -/
def dictLookup : List (String × CertData) → String → Option CertData
  | [], _ => none
  | (k0, v0) :: rest, k => if k0 = k then some v0 else dictLookup rest k

/-- Python dict assignment `certificates[cert_id] = v`: overwrite in place
when the key is present, append otherwise. -/
def dictInsert : List (String × CertData) → String → CertData → List (String × CertData)
  | [], k, v => [(k, v)]
  | (k0, v0) :: rest, k, v =>
    if k0 = k then (k, v) :: rest else (k0, v0) :: dictInsert rest k v

/-- Result of `issue_certificate`. -/
inductive IssueResult
  | ok (certId : String) (serialNumber : Nat) (subject issuer : String)
      (notBefore notAfter : Int)
  | invalidSignature
  deriving DecidableEq

/-- Embedding of `PKIMCPPlugin.issue_certificate`: verify the CSR
self-signature, build the certificate (subject from the CSR, issuer the CA
subject, fresh serial, validity `[now, now + validity_days]`), store it under
`cert_id`, and append one audit entry. On an invalid signature, return the
error with the state untouched. -/
def issueCertificate (st : PKIState) (csr : CSR) (certId : String)
    (validityDays : Int) (now : Int) (serial : Nat) : IssueResult × PKIState :=
  if csr.sigValid = false then
    (.invalidSignature, st)
  else
    let cert : Certificate :=
      { serialNumber := serial, subject := csr.subject, issuer := st.caSubject,
        publicKey := csr.publicKey, notBefore := now, notAfter := now + validityDays }
    let cd : CertData :=
      { certificate := cert, status := "active", issuedAt := now,
        expiresAt := cert.notAfter, subject := cert.subject,
        renewedFrom := none, supersededBy := none,
        revokedAt := none, revocationReason := none }
    let entry : LogEntry :=
      { timestamp := now, operation := "issue_certificate",
        details := [("cert_id", certId), ("subject", cert.subject),
                    ("validity_days", toString validityDays)] }
    (.ok certId serial cert.subject cert.issuer cert.notBefore cert.notAfter,
     { st with certificates := dictInsert st.certificates certId cd,
               operationLog := st.operationLog ++ [entry] })

/-- Result of `revoke_certificate`. -/
inductive RevokeResult
  | ok (certId : String) (revokedAt : Int) (reason : String)
  | notFound (certId : String)
  | alreadyRevoked
  deriving DecidableEq

/-- Embedding of `PKIMCPPlugin.revoke_certificate`: not-found and
already-revoked errors leave the state untouched; otherwise set status
`"revoked"`, record timestamp and reason, and append one audit entry. -/
def revokeCertificate (st : PKIState) (certId : String) (reason : String)
    (now : Int) : RevokeResult × PKIState :=
  match dictLookup st.certificates certId with
  | none => (.notFound certId, st)
  | some cd =>
    if cd.status = "revoked" then
      (.alreadyRevoked, st)
    else
      let cd1 := { cd with status := "revoked", revokedAt := some now,
                           revocationReason := some reason }
      let entry : LogEntry :=
        { timestamp := now, operation := "revoke_certificate",
          details := [("cert_id", certId), ("reason", reason)] }
      (.ok certId now reason,
       { st with certificates := dictInsert st.certificates certId cd1,
                 operationLog := st.operationLog ++ [entry] })

/-- Result of `renew_certificate`. -/
inductive RenewResult
  | ok (oldCertId newCertId : String) (serialNumber : Nat) (notAfter : Int)
  | notFound (certId : String)
  deriving DecidableEq

/-- Embedding of `PKIMCPPlugin.renew_certificate`: build a new certificate
with the old subject and public key and a fresh serial, store it under
`cert_id + "_renewed"` (a plain dict assignment: an existing record under
that key is overwritten), mark the old record superseded with a forward
reference, and append one audit entry. -/
def renewCertificate (st : PKIState) (certId : String) (validityDays : Int)
    (now : Int) (serial : Nat) : RenewResult × PKIState :=
  match dictLookup st.certificates certId with
  | none => (.notFound certId, st)
  | some oldCd =>
    let oldCert := oldCd.certificate
    let renewed : Certificate :=
      { serialNumber := serial, subject := oldCert.subject,
        issuer := st.caSubject, publicKey := oldCert.publicKey,
        notBefore := now, notAfter := now + validityDays }
    let newCertId := certId ++ "_renewed"
    let newCd : CertData :=
      { certificate := renewed, status := "active", issuedAt := now,
        expiresAt := renewed.notAfter, subject := renewed.subject,
        renewedFrom := some certId, supersededBy := none,
        revokedAt := none, revocationReason := none }
    let certs1 := dictInsert st.certificates newCertId newCd
    let oldCd1 := { oldCd with status := "superseded",
                               supersededBy := some newCertId }
    let certs2 := dictInsert certs1 certId oldCd1
    let entry : LogEntry :=
      { timestamp := now, operation := "renew_certificate",
        details := [("old_cert_id", certId), ("new_cert_id", newCertId),
                    ("validity_days", toString validityDays)] }
    (.ok certId newCertId serial renewed.notAfter,
     { st with certificates := certs2,
               operationLog := st.operationLog ++ [entry] })

/-- One element of the list returned by `list_certificates`. -/
structure CertSummary where
  certId : String
  subject : String
  status : String
  issuedAt : Int
  expiresAt : Int
  deriving DecidableEq

/-- Embedding of `PKIMCPPlugin.list_certificates`: keep the records whose
stored status string equals the filter (or everything for `"all"`). The
method reads the store and returns; the state comes back unchanged. -/
def listCertificates (st : PKIState) (status : String) :
    List CertSummary × PKIState :=
  (st.certificates.filterMap fun p =>
    if status = "all" ∨ p.2.status = status then
      some { certId := p.1, subject := p.2.subject, status := p.2.status,
             issuedAt := p.2.issuedAt, expiresAt := p.2.expiresAt }
    else none, st)

/-- The mutating registry operations, with the random serial draw and the
current time as explicit data. -/
inductive PKIOp
  | issue (csr : CSR) (certId : String) (validityDays : Int) (now : Int) (serial : Nat)
  | revoke (certId : String) (reason : String) (now : Int)
  | renew (certId : String) (validityDays : Int) (now : Int) (serial : Nat)
  deriving DecidableEq

/-- State transition of one registry operation (result discarded). -/
def applyOp (st : PKIState) : PKIOp → PKIState
  | .issue csr certId d now s => (issueCertificate st csr certId d now s).2
  | .revoke certId r now => (revokeCertificate st certId r now).2
  | .renew certId d now s => (renewCertificate st certId d now s).2

/-- The plugin state right after `__init__`: empty certificate store and
empty operation log. -/
def initState (caSubject : String) : PKIState :=
  { certificates := [], caSubject := caSubject, operationLog := [] }

/-- Run a sequence of registry operations from a given state. -/
def runOps (st : PKIState) (ops : List PKIOp) : PKIState :=
  ops.foldl applyOp st

/-- Serial numbers of the records of a certificate store, in store order. -/
def certSerials (m : List (String × CertData)) : List Nat :=
  m.map fun p => p.2.certificate.serialNumber

/-- Serial numbers of all stored certificates, in store order. -/
def storedSerials (st : PKIState) : List Nat :=
  certSerials st.certificates

/-- The serial numbers drawn by one operation (the explicit random input). -/
def opSerials : PKIOp → List Nat
  | .issue _ _ _ _ s => [s]
  | .revoke _ _ _ => []
  | .renew _ _ _ s => [s]

/-- The serial numbers drawn along a sequence of operations. -/
def opsSerials (ops : List PKIOp) : List Nat :=
  (ops.map opSerials).flatten

/-- Status of the stored record under an identifier, if any. -/
def statusOf (st : PKIState) (certId : String) : Option String :=
  (dictLookup st.certificates certId).map fun cd => cd.status

/-- The statuses a run can store: no mutation ever writes `"expired"`. -/
def NoExpiredStored (st : PKIState) : Prop :=
  ∀ p ∈ st.certificates, p.2.status ≠ "expired"

/-! Policy plugin (`Running-Agent/policy_plugin.py`). -/

/-- The `key_generation` policy category. -/
structure KeyGenPolicy where
  rsaMinKeySize : Int
  rsaAllowedSizes : List Int
  eccAllowedCurves : List String
  allowedAlgorithms : List String
  deriving DecidableEq

/-- The `certificate` policy category. -/
structure CertPolicy where
  maxValidityDays : Int
  minValidityDays : Int
  requireSan : Bool
  allowedKeyUsages : List String
  allowedExtendedKeyUsages : List String
  deriving DecidableEq

/-- The `naming` policy category; `allowed_countries = None` means all
countries are allowed. -/
structure NamingPolicy where
  requireCountry : Bool
  requireOrganization : Bool
  maxCommonNameLength : Nat
  allowedCountries : Option (List String)
  deriving DecidableEq

/-- The `lifecycle` policy category. -/
structure LifecyclePolicy where
  renewalWarningDays : Int
  autoRevokeOnCompromise : Bool
  deriving DecidableEq

/-- The nested policy configuration of `PolicyMCPPlugin.policies`. -/
structure Policies where
  keyGeneration : KeyGenPolicy
  certificate : CertPolicy
  naming : NamingPolicy
  lifecycle : LifecyclePolicy
  deriving DecidableEq

/-- The configuration returned by `_load_default_policies`. -/
def defaultPolicies : Policies :=
  { keyGeneration :=
      { rsaMinKeySize := 2048, rsaAllowedSizes := [2048, 3072, 4096],
        eccAllowedCurves := ["SECP256R1", "SECP384R1", "SECP521R1"],
        allowedAlgorithms := ["RSA", "ECC"] },
    certificate :=
      { maxValidityDays := 825, minValidityDays := 1, requireSan := true,
        allowedKeyUsages := ["digitalSignature", "keyEncipherment",
          "dataEncipherment", "keyAgreement", "keyCertSign", "cRLSign"],
        allowedExtendedKeyUsages := ["serverAuth", "clientAuth",
          "codeSigning", "emailProtection"] },
    naming :=
      { requireCountry := false, requireOrganization := true,
        maxCommonNameLength := 64, allowedCountries := none },
    lifecycle := { renewalWarningDays := 30, autoRevokeOnCompromise := true } }

/-- The default policies with both naming requirements switched off: the
configuration under which an evaluation that supplies only a validity
period exercises the validity bound checks in isolation. -/
def policiesNoNamingReq : Policies :=
  { defaultPolicies with naming :=
      { requireCountry := false, requireOrganization := false,
        maxCommonNameLength := 64, allowedCountries := none } }

/-- One violation message appended by the validators, one constructor per
append site, carrying the data interpolated into the message. -/
inductive Violation
  | algorithmNotAllowed (algorithm : String)
  | rsaKeySizeBelowMin (keySize rsaMin : Int)
  | rsaKeySizeNotAllowed (keySize : Int)
  | eccCurveNotAllowed (curve : String)
  | validityExceedsMax (validityDays maxDays : Int)
  | validityBelowMin (validityDays minDays : Int)
  | organizationRequired
  | countryRequired
  | commonNameTooLong (len maxLen : Nat)
  | countryNotAllowed (country : String)
  | invalidKeyUsages (invalid : List String)
  | invalidExtendedKeyUsages (invalid : List String)
  deriving DecidableEq

/-- A violation concerns the RSA key size when it is one of the two messages
appended by the size checks of `validate_key_policy`. -/
def Violation.aboutKeySize : Violation → Bool
  | .rsaKeySizeBelowMin _ _ => true
  | .rsaKeySizeNotAllowed _ => true
  | _ => false

/-- The dictionary returned by both validators: `success` is always true,
`compliant` holds exactly when no violation was collected. -/
structure ComplianceResult where
  success : Bool
  compliant : Bool
  violations : List Violation
  warnings : List String
  deriving DecidableEq

/-- Python truthiness of an optional string: `None` and `""` are falsy. -/
def strTruthy : Option String → Bool
  | none => false
  | some s => decide (s ≠ "")

/-- Python truthiness of an optional list: `None` and `[]` are falsy. -/
def listTruthy {α : Type} : Option (List α) → Bool
  | none => false
  | some [] => false
  | some (_ :: _) => true

/-- Embedding of `PolicyMCPPlugin.validate_key_policy`, collecting the
violation and warning lists in program order. -/
def validateKeyPolicy (pol : Policies) (algorithm : String)
    (keySize : Option Int) (curve : Option String) : ComplianceResult :=
  let kp := pol.keyGeneration
  let vAlg : List Violation :=
    if algorithm ∈ kp.allowedAlgorithms then [] else [.algorithmNotAllowed algorithm]
  let rsa : List Violation × List String :=
    if algorithm = "RSA" then
      match keySize with
      | none => ([], ["Key size not specified, will use default (2048)"])
      | some k =>
        if k < kp.rsaMinKeySize then ([.rsaKeySizeBelowMin k kp.rsaMinKeySize], [])
        else if k ∉ kp.rsaAllowedSizes then ([.rsaKeySizeNotAllowed k], [])
        else ([], [])
    else ([], [])
  let ecc : List Violation × List String :=
    if algorithm = "ECC" then
      match curve with
      | none => ([], ["Curve not specified, will use default (SECP256R1)"])
      | some c =>
        if c ∉ kp.eccAllowedCurves then ([.eccCurveNotAllowed c], []) else ([], [])
    else ([], [])
  let violations := vAlg ++ rsa.1 ++ ecc.1
  { success := true, compliant := violations.isEmpty,
    violations := violations, warnings := rsa.2 ++ ecc.2 }

/-- Embedding of `PolicyMCPPlugin.validate_certificate_policy`, collecting
the violation list in program order; the function appends no warnings. -/
def validateCertificatePolicy (pol : Policies) (validityDays : Int)
    (commonName organization country : Option String)
    (keyUsage extendedKeyUsage : Option (List String)) : ComplianceResult :=
  let cp := pol.certificate
  let np := pol.naming
  let vMax : List Violation :=
    if validityDays > cp.maxValidityDays then
      [.validityExceedsMax validityDays cp.maxValidityDays] else []
  let vMin : List Violation :=
    if validityDays < cp.minValidityDays then
      [.validityBelowMin validityDays cp.minValidityDays] else []
  let vOrg : List Violation :=
    if np.requireOrganization ∧ strTruthy organization = false then
      [.organizationRequired] else []
  let vCountry : List Violation :=
    if np.requireCountry ∧ strTruthy country = false then
      [.countryRequired] else []
  let vCn : List Violation :=
    match commonName with
    | some cn =>
      if cn ≠ "" ∧ cn.length > np.maxCommonNameLength then
        [.commonNameTooLong cn.length np.maxCommonNameLength] else []
    | none => []
  let vAllowedCountry : List Violation :=
    if listTruthy np.allowedCountries ∧ strTruthy country then
      match np.allowedCountries, country with
      | some allowed, some c =>
        if c ∉ allowed then [.countryNotAllowed c] else []
      | _, _ => []
    else []
  let vKu : List Violation :=
    if listTruthy keyUsage then
      match keyUsage with
      | some kus =>
        let invalid := kus.filter fun ku => ku ∉ cp.allowedKeyUsages
        if invalid ≠ [] then [.invalidKeyUsages invalid] else []
      | none => []
    else []
  let vEku : List Violation :=
    if listTruthy extendedKeyUsage then
      match extendedKeyUsage with
      | some ekus =>
        let invalid := ekus.filter fun eku => eku ∉ cp.allowedExtendedKeyUsages
        if invalid ≠ [] then [.invalidExtendedKeyUsages invalid] else []
      | none => []
    else []
  let violations := vMax ++ vMin ++ vOrg ++ vCountry ++ vCn ++ vAllowedCountry ++ vKu ++ vEku
  { success := true, compliant := violations.isEmpty,
    violations := violations, warnings := [] }

/-- One entry of `PolicyMCPPlugin.violations`, as appended by
`_record_violation`. -/
structure ViolationRecord where
  timestamp : Int
  vtype : String
  violations : List Violation
  deriving DecidableEq

/-- The mutable state of `PolicyMCPPlugin`: the loaded policies and the
recorded violation list. -/
structure PolicyState where
  policies : Policies
  violations : List ViolationRecord
  deriving DecidableEq

/-- Embedding of `_record_violation`: append one record. -/
def recordViolation (ps : PolicyState) (now : Int) (vtype : String)
    (vs : List Violation) : PolicyState :=
  { ps with violations := ps.violations ++ [{ timestamp := now, vtype := vtype,
                                              violations := vs }] }

/-- The stateful `validate_certificate_policy` method: evaluate, and record
one violation entry when the result is non-compliant. -/
def validateCertificatePolicyOp (ps : PolicyState) (now : Int)
    (validityDays : Int) (commonName organization country : Option String)
    (keyUsage extendedKeyUsage : Option (List String)) :
    ComplianceResult × PolicyState :=
  let r := validateCertificatePolicy ps.policies validityDays commonName
    organization country keyUsage extendedKeyUsage
  (r, if r.violations.isEmpty then ps else recordViolation ps now "certificate" r.violations)

/-- The stateful `validate_key_policy` method: evaluate, and record one
violation entry when the result is non-compliant. -/
def validateKeyPolicyOp (ps : PolicyState) (now : Int) (algorithm : String)
    (keySize : Option Int) (curve : Option String) :
    ComplianceResult × PolicyState :=
  let r := validateKeyPolicy ps.policies algorithm keySize curve
  (r, if r.violations.isEmpty then ps else recordViolation ps now "key_generation" r.violations)

/-- The dictionary returned by `check_certificate_expiry`. -/
structure ExpiryResult where
  success : Bool
  status : String
  daysUntilExpiry : Int
  needsRenewal : Bool
  deriving DecidableEq

/-- Embedding of `PolicyMCPPlugin.check_certificate_expiry`: classify the
expiry date against `datetime.utcnow()` (the explicit `now`) and the
configured renewal warning window. Timestamps are at day granularity, so
`(expiry_date - now).days` is the difference. -/
def checkCertificateExpiry (pol : Policies) (notValidAfter now : Int) :
    ExpiryResult :=
  let daysUntilExpiry := notValidAfter - now
  let warningDays := pol.lifecycle.renewalWarningDays
  if daysUntilExpiry < 0 then
    { success := true, status := "expired", daysUntilExpiry := daysUntilExpiry,
      needsRenewal := false }
  else if daysUntilExpiry ≤ warningDays then
    { success := true, status := "expiring_soon", daysUntilExpiry := daysUntilExpiry,
      needsRenewal := true }
  else
    { success := true, status := "valid", daysUntilExpiry := daysUntilExpiry,
      needsRenewal := false }

/-- The `check_certificate_expiry` method as a state-passing operation: the
method reads `self.policies` and mutates nothing. -/
def checkCertificateExpiryOp (ps : PolicyState) (notValidAfter now : Int) :
    ExpiryResult × PolicyState :=
  (checkCertificateExpiry ps.policies notValidAfter now, ps)

/-- Python slice `l[i:]` for a possibly negative integer index. -/
def pySliceFrom {α : Type} (l : List α) (i : Int) : List α :=
  if 0 ≤ i then l.drop i.toNat else l.drop (l.length + i).toNat

/-- The dictionary returned by `list_violations`. -/
structure ViolationListing where
  success : Bool
  totalViolations : Nat
  violations : List ViolationRecord
  deriving DecidableEq

/-- Embedding of `PolicyMCPPlugin.list_violations`: the recent list is
`violations[-limit:] if limit else violations` — the limit is tested for
truthiness, so a zero limit returns the whole list. -/
def listViolations (ps : PolicyState) (limit : Int) : ViolationListing :=
  let recent := if limit ≠ 0 then pySliceFrom ps.violations (-limit) else ps.violations
  { success := true, totalViolations := ps.violations.length, violations := recent }

/-- The mutable state of `CryptoMCPPlugin` that `list_operations` reads:
its own operation log. -/
structure CryptoState where
  operationLog : List LogEntry
  deriving DecidableEq

/-- The dictionary returned by `list_operations`. -/
structure OperationListing where
  success : Bool
  totalOperations : Nat
  operations : List LogEntry
  deriving DecidableEq

/-- Embedding of `CryptoMCPPlugin.list_operations`: same truthiness-tested
slice as `list_violations`. -/
def listOperations (cs : CryptoState) (limit : Int) : OperationListing :=
  let recent := if limit ≠ 0 then pySliceFrom cs.operationLog (-limit) else cs.operationLog
  { success := true, totalOperations := cs.operationLog.length, operations := recent }

/-! Lemmas about the dictionary operations. -/

theorem dictLookup_dictInsert_self (m : List (String × CertData)) (k : String)
    (v : CertData) : dictLookup (dictInsert m k v) k = some v := by
  induction m with
  | nil => simp [dictInsert, dictLookup]
  | cons p rest ih =>
    by_cases h : p.1 = k
    · simp [dictInsert, dictLookup, h]
    · simp [dictInsert, dictLookup, h, ih]

theorem dictLookup_dictInsert_ne (m : List (String × CertData)) (k k2 : String)
    (v : CertData) (h : k2 ≠ k) :
    dictLookup (dictInsert m k v) k2 = dictLookup m k2 := by
  induction m with
  | nil =>
    simp only [dictInsert, dictLookup]
    rw [if_neg fun h2 => h h2.symm]
  | cons p rest ih =>
    obtain ⟨k0, v0⟩ := p
    simp only [dictInsert]
    by_cases hk : k0 = k
    · rw [if_pos hk]
      simp only [dictLookup]
      rw [if_neg fun h2 => h h2.symm, if_neg fun h2 : k0 = k2 => h (h2 ▸ hk)]
    · rw [if_neg hk]
      simp only [dictLookup]
      by_cases hk2 : k0 = k2
      · rw [if_pos hk2, if_pos hk2]
      · rw [if_neg hk2, if_neg hk2]
        exact ih

theorem mem_dictInsert (m : List (String × CertData)) (k : String) (v : CertData)
    (x : String × CertData) (h : x ∈ dictInsert m k v) : x = (k, v) ∨ x ∈ m := by
  induction m with
  | nil => simpa [dictInsert] using h
  | cons p rest ih =>
    by_cases hk : p.1 = k
    · simp only [dictInsert, if_pos hk] at h
      rcases List.mem_cons.mp h with h1 | h1
      · exact Or.inl h1
      · exact Or.inr (List.mem_cons_of_mem _ h1)
    · simp only [dictInsert, if_neg hk] at h
      rcases List.mem_cons.mp h with h1 | h1
      · exact Or.inr (h1 ▸ List.mem_cons_self _ _)
      · rcases ih h1 with h2 | h2
        · exact Or.inl h2
        · exact Or.inr (List.mem_cons_of_mem _ h2)

theorem certSerials_cons (p : String × CertData) (m : List (String × CertData)) :
    certSerials (p :: m) = p.2.certificate.serialNumber :: certSerials m := rfl

theorem mem_certSerials_dictInsert (m : List (String × CertData)) (k : String)
    (v : CertData) (s : Nat) (h : s ∈ certSerials (dictInsert m k v)) :
    s = v.certificate.serialNumber ∨ s ∈ certSerials m := by
  rcases List.mem_map.mp h with ⟨x, hx, hs⟩
  rcases mem_dictInsert m k v x hx with h1 | h1
  · exact Or.inl (by rw [← hs, h1])
  · exact Or.inr (hs ▸ List.mem_map_of_mem _ h1)

theorem nodup_certSerials_dictInsert (m : List (String × CertData)) (k : String)
    (v : CertData) (h1 : (certSerials m).Nodup)
    (h2 : v.certificate.serialNumber ∉ certSerials m) :
    (certSerials (dictInsert m k v)).Nodup := by
  induction m with
  | nil => simp [dictInsert, certSerials]
  | cons p rest ih =>
    simp only [certSerials, List.map_cons, List.nodup_cons, List.mem_cons,
      not_or] at h1 h2
    by_cases hk : p.1 = k
    · simp only [dictInsert, if_pos hk, certSerials, List.map_cons, List.nodup_cons]
      exact ⟨h2.2, h1.2⟩
    · simp only [dictInsert, if_neg hk, certSerials, List.map_cons, List.nodup_cons]
      refine ⟨fun hmem => ?_, ih h1.2 h2.2⟩
      rcases mem_certSerials_dictInsert rest k v _ hmem with h3 | h3
      · exact h2.1 h3.symm
      · exact h1.1 h3

theorem certSerials_dictInsert_of_lookup (m : List (String × CertData))
    (k : String) (v cd : CertData) (h : dictLookup m k = some cd)
    (hc : v.certificate = cd.certificate) :
    certSerials (dictInsert m k v) = certSerials m := by
  induction m with
  | nil => simp [dictLookup] at h
  | cons p rest ih =>
    by_cases hk : p.1 = k
    · simp only [dictLookup, if_pos hk] at h
      cases h
      simp [dictInsert, hk, certSerials, hc]
    · simp only [dictLookup, if_neg hk] at h
      simp only [dictInsert, if_neg hk, certSerials_cons, ih h]

theorem certSerials_dictInsert_update (m : List (String × CertData))
    (k1 k2 : String) (v1 v2 cd : CertData) (hne : k2 ≠ k1)
    (hl : dictLookup m k2 = some cd) (hc : v2.certificate = cd.certificate) :
    certSerials (dictInsert (dictInsert m k1 v1) k2 v2) =
      certSerials (dictInsert m k1 v1) := by
  apply certSerials_dictInsert_of_lookup _ _ _ cd _ hc
  rw [dictLookup_dictInsert_ne _ _ _ _ hne]
  exact hl

theorem string_ne_append_renewed (s : String) : s ≠ s ++ "_renewed" := by
  intro h
  have h2 := congrArg String.length h
  simp only [String.length_append] at h2
  have h3 : "_renewed".length = 8 := rfl
  omega

/-- One registry mutation keeps the stored serials without duplicates when
the serial it draws is fresh, and only adds serials it drew. -/
theorem certSerials_applyOp (st : PKIState) (op : PKIOp)
    (hnd : (certSerials st.certificates).Nodup)
    (hfresh : ∀ s ∈ opSerials op, s ∉ certSerials st.certificates) :
    (certSerials (applyOp st op).certificates).Nodup ∧
    ∀ s ∈ certSerials (applyOp st op).certificates,
      s ∈ certSerials st.certificates ∨ s ∈ opSerials op := by
  cases op with
  | issue csr cid d now s =>
    by_cases hs : csr.sigValid = false
    · simp only [applyOp, issueCertificate, if_pos hs]
      exact ⟨hnd, fun s2 h2 => Or.inl h2⟩
    · have hfresh1 : s ∉ certSerials st.certificates := hfresh s (by simp [opSerials])
      simp only [applyOp, issueCertificate, if_neg hs]
      constructor
      · exact nodup_certSerials_dictInsert _ _ _ hnd hfresh1
      · intro s2 h2
        rcases mem_certSerials_dictInsert _ _ _ _ h2 with h3 | h3
        · exact Or.inr (by simp [opSerials, h3])
        · exact Or.inl h3
  | revoke cid r now =>
    cases hl : dictLookup st.certificates cid with
    | none =>
      simp only [applyOp, revokeCertificate, hl]
      exact ⟨hnd, fun s2 h2 => Or.inl h2⟩
    | some cd =>
      by_cases hrev : cd.status = "revoked"
      · simp only [applyOp, revokeCertificate, hl, if_pos hrev]
        exact ⟨hnd, fun s2 h2 => Or.inl h2⟩
      · simp only [applyOp, revokeCertificate, hl, if_neg hrev]
        rw [certSerials_dictInsert_of_lookup st.certificates cid
          { cd with status := "revoked", revokedAt := some now,
                    revocationReason := some r } cd hl rfl]
        exact ⟨hnd, fun s2 h2 => Or.inl h2⟩
  | renew cid d now s =>
    cases hl : dictLookup st.certificates cid with
    | none =>
      simp only [applyOp, renewCertificate, hl]
      exact ⟨hnd, fun s2 h2 => Or.inl h2⟩
    | some oldCd =>
      have hne : cid ≠ cid ++ "_renewed" := string_ne_append_renewed cid
      have hfresh1 : s ∉ certSerials st.certificates := hfresh s (by simp [opSerials])
      simp only [applyOp, renewCertificate, hl]
      rw [certSerials_dictInsert_update st.certificates (cid ++ "_renewed") cid _
        { oldCd with status := "superseded", supersededBy := some (cid ++ "_renewed") }
        oldCd hne hl rfl]
      constructor
      · exact nodup_certSerials_dictInsert _ _ _ hnd hfresh1
      · intro s2 h2
        rcases mem_certSerials_dictInsert _ _ _ _ h2 with h3 | h3
        · exact Or.inr (by simp [opSerials, h3])
        · exact Or.inl h3

/-- Along any run whose drawn serials avoid duplicates and avoid the serials
already stored, the store keeps duplicate-free serials, and every stored
serial was either there initially or was drawn. -/
theorem runOps_serials (ops : List PKIOp) : ∀ st : PKIState,
    (certSerials st.certificates).Nodup →
    (opsSerials ops).Nodup →
    (∀ s ∈ opsSerials ops, s ∉ certSerials st.certificates) →
    (certSerials (runOps st ops).certificates).Nodup ∧
    ∀ s ∈ certSerials (runOps st ops).certificates,
      s ∈ certSerials st.certificates ∨ s ∈ opsSerials ops := by
  induction ops with
  | nil =>
    intro st h1 _ _
    exact ⟨h1, fun s h => Or.inl h⟩
  | cons op rest ih =>
    intro st h1 h2 h3
    have hops : opsSerials (op :: rest) = opSerials op ++ opsSerials rest := by
      simp [opsSerials]
    rw [hops] at h2 h3
    rw [List.nodup_append] at h2
    obtain ⟨h2a, h2b, h2c⟩ := h2
    have hfresh : ∀ s ∈ opSerials op, s ∉ certSerials st.certificates :=
      fun s hs => h3 s (List.mem_append_left _ hs)
    obtain ⟨hnd1, hsub1⟩ := certSerials_applyOp st op h1 hfresh
    have h3r : ∀ s ∈ opsSerials rest, s ∉ certSerials (applyOp st op).certificates := by
      intro s hs hmem
      rcases hsub1 s hmem with hc | hc
      · exact h3 s (List.mem_append_right _ hs) hc
      · exact h2c hc hs
    have hrun : runOps st (op :: rest) = runOps (applyOp st op) rest := rfl
    rw [hrun]
    obtain ⟨hnd2, hsub2⟩ := ih (applyOp st op) hnd1 h2b h3r
    refine ⟨hnd2, fun s hs => ?_⟩
    rcases hsub2 s hs with hc | hc
    · rcases hsub1 s hc with hd | hd
      · exact Or.inl hd
      · exact Or.inr (List.mem_append_left _ hd)
    · exact Or.inr (List.mem_append_right _ hc)

theorem noExpiredStored_applyOp (st : PKIState) (op : PKIOp)
    (h : NoExpiredStored st) : NoExpiredStored (applyOp st op) := by
  cases op with
  | issue csr cid d now s =>
    by_cases hs : csr.sigValid = false
    · simpa only [applyOp, issueCertificate, if_pos hs] using h
    · simp only [NoExpiredStored, applyOp, issueCertificate, if_neg hs]
      intro p hp
      rcases mem_dictInsert _ _ _ _ hp with h1 | h1
      · simp [h1]
      · exact h p h1
  | revoke cid r now =>
    cases hl : dictLookup st.certificates cid with
    | none => simpa only [applyOp, revokeCertificate, hl] using h
    | some cd =>
      by_cases hrev : cd.status = "revoked"
      · simpa only [applyOp, revokeCertificate, hl, if_pos hrev] using h
      · simp only [NoExpiredStored, applyOp, revokeCertificate, hl, if_neg hrev]
        intro p hp
        rcases mem_dictInsert _ _ _ _ hp with h1 | h1
        · simp [h1]
        · exact h p h1
  | renew cid d now s =>
    cases hl : dictLookup st.certificates cid with
    | none => simpa only [applyOp, renewCertificate, hl] using h
    | some oldCd =>
      simp only [NoExpiredStored, applyOp, renewCertificate, hl]
      intro p hp
      rcases mem_dictInsert _ _ _ _ hp with h1 | h1
      · simp [h1]
      · rcases mem_dictInsert _ _ _ _ h1 with h2 | h2
        · simp [h2]
        · exact h p h2

theorem noExpiredStored_runOps (ops : List PKIOp) : ∀ st : PKIState,
    NoExpiredStored st → NoExpiredStored (runOps st ops) := by
  induction ops with
  | nil => intro st h; exact h
  | cons op rest ih =>
    intro st h
    exact ih (applyOp st op) (noExpiredStored_applyOp st op h)

theorem listCertificates_expired_of_noExpired (st : PKIState)
    (h : NoExpiredStored st) : (listCertificates st "expired").1 = [] := by
  simp only [listCertificates]
  apply List.filterMap_eq_nil_iff.mpr
  intro p hp
  rw [if_neg]
  rintro (h1 | h1)
  · exact absurd h1 (by decide)
  · exact h p hp h1

/-! Claim theorems. -/

/-- C1 counterexample: two issuance calls whose random serial draws collide
both succeed, and both records are stored and visible (status `"active"`)
while sharing serial number 42 — no insert verifies uniqueness. -/
theorem colliding_serial_draws_both_stored :
    ¬ (storedSerials (runOps (initState "Demo Root CA")
        [PKIOp.issue ⟨"CN=a", 1, true⟩ "a" 365 0 42,
         PKIOp.issue ⟨"CN=b", 2, true⟩ "b" 365 0 42])).Nodup ∧
    statusOf (runOps (initState "Demo Root CA")
        [PKIOp.issue ⟨"CN=a", 1, true⟩ "a" 365 0 42,
         PKIOp.issue ⟨"CN=b", 2, true⟩ "b" 365 0 42]) "a" = some "active" ∧
    statusOf (runOps (initState "Demo Root CA")
        [PKIOp.issue ⟨"CN=a", 1, true⟩ "a" 365 0 42,
         PKIOp.issue ⟨"CN=b", 2, true⟩ "b" 365 0 42]) "b" = some "active" := by
  decide

/-- C1 (amended): no insert checks serial uniqueness; the registry keeps
pairwise distinct serials exactly when the random draws supplied to the run
are pairwise distinct — for every sequence of issue, revoke and renew
operations whose drawn serials avoid collision, no two stored certificates
share a serial number. -/
theorem serial_uniqueness_of_distinct_draws (ca : String) (ops : List PKIOp)
    (h : (opsSerials ops).Nodup) :
    (storedSerials (runOps (initState ca) ops)).Nodup :=
  (runOps_serials ops (initState ca)
    (by simp [initState, certSerials]) h
    (by intro s _ hmem; simp [initState, certSerials] at hmem)).1

/-- Witness for the amended C1 theorem at a concrete run. -/
theorem serial_uniqueness_of_distinct_draws_witness :
    (opsSerials [PKIOp.issue ⟨"CN=a", 1, true⟩ "a" 365 0 5,
                 PKIOp.renew "a" 30 1 6]).Nodup ∧
    (storedSerials (runOps (initState "Demo Root CA")
        [PKIOp.issue ⟨"CN=a", 1, true⟩ "a" 365 0 5,
         PKIOp.renew "a" 30 1 6])).Nodup :=
  ⟨by decide, serial_uniqueness_of_distinct_draws "Demo Root CA"
    [PKIOp.issue ⟨"CN=a", 1, true⟩ "a" 365 0 5,
     PKIOp.renew "a" 30 1 6] (by decide)⟩

/-- C2 counterexample: with records `"a"` and `"a_renewed"` both present,
renewing `"a"` reports success and silently replaces the record stored
under `"a_renewed"` (serial 2 before, serial 3 of the renewal after) —
no `IdentifierCollision` error is surfaced. -/
theorem renewal_suffix_collision_silently_overwrites :
    ((dictLookup (runOps (initState "CA")
        [PKIOp.issue ⟨"CN=a", 1, true⟩ "a" 365 0 1,
         PKIOp.issue ⟨"CN=victim", 2, true⟩ "a_renewed" 365 0 2]).certificates
        "a_renewed").map fun cd => cd.certificate.serialNumber) = some 2 ∧
    (renewCertificate (runOps (initState "CA")
        [PKIOp.issue ⟨"CN=a", 1, true⟩ "a" 365 0 1,
         PKIOp.issue ⟨"CN=victim", 2, true⟩ "a_renewed" 365 0 2]) "a" 365 0 3).1 =
      RenewResult.ok "a" "a_renewed" 3 365 ∧
    ((dictLookup (renewCertificate (runOps (initState "CA")
        [PKIOp.issue ⟨"CN=a", 1, true⟩ "a" 365 0 1,
         PKIOp.issue ⟨"CN=victim", 2, true⟩ "a_renewed" 365 0 2]) "a" 365 0 3).2.certificates
        "a_renewed").map fun cd => (cd.certificate.serialNumber, cd.renewedFrom)) =
      some (3, some "a") := by
  decide

/-- C2 (amended): the renewal identifier is derived deterministically as
old-id + `"_renewed"`, and issuance stores under the caller's identifier,
but collisions are not detected: both operations succeed and the plain dict
assignment replaces whatever record already sits under the target
identifier — no `IdentifierCollision` error exists. -/
theorem renew_id_deterministic_and_overwrites (st : PKIState)
    (certId subj : String) (pk : Nat) (d now : Int) (s : Nat) (cd : CertData)
    (h : dictLookup st.certificates certId = some cd) :
    (renewCertificate st certId d now s).1 =
      RenewResult.ok certId (certId ++ "_renewed") s (now + d) ∧
    ((dictLookup (renewCertificate st certId d now s).2.certificates
        (certId ++ "_renewed")).map
        fun c => (c.certificate.serialNumber, c.renewedFrom)) =
      some (s, some certId) ∧
    ((dictLookup (issueCertificate st ⟨subj, pk, true⟩ certId d now s).2.certificates
        certId).map fun c => c.certificate.serialNumber) = some s := by
  have hne : certId ≠ certId ++ "_renewed" := string_ne_append_renewed certId
  refine ⟨by simp [renewCertificate, h], ?_, ?_⟩
  · simp only [renewCertificate, h]
    rw [dictLookup_dictInsert_ne _ _ _ _ (Ne.symm hne), dictLookup_dictInsert_self]
    rfl
  · simp only [issueCertificate, if_neg (by simp : ¬ (⟨subj, pk, true⟩ : CSR).sigValid = false)]
    rw [dictLookup_dictInsert_self]
    rfl

/-- Witness for the amended C2 theorem at a concrete registry. -/
theorem renew_id_deterministic_and_overwrites_witness :
    dictLookup (runOps (initState "CA")
        [PKIOp.issue ⟨"CN=a", 7, true⟩ "a" 365 0 5]).certificates "a" =
      some { certificate := { serialNumber := 5, subject := "CN=a", issuer := "CA",
                              publicKey := 7, notBefore := 0, notAfter := 365 },
             status := "active", issuedAt := 0, expiresAt := 365, subject := "CN=a",
             renewedFrom := none, supersededBy := none,
             revokedAt := none, revocationReason := none } ∧
    (renewCertificate (runOps (initState "CA")
        [PKIOp.issue ⟨"CN=a", 7, true⟩ "a" 365 0 5]) "a" 30 400 9).1 =
      RenewResult.ok "a" ("a" ++ "_renewed") 9 430 ∧
    ((dictLookup (renewCertificate (runOps (initState "CA")
        [PKIOp.issue ⟨"CN=a", 7, true⟩ "a" 365 0 5]) "a" 30 400 9).2.certificates
        ("a" ++ "_renewed")).map
        fun c => (c.certificate.serialNumber, c.renewedFrom)) = some (9, some "a") ∧
    ((dictLookup (issueCertificate (runOps (initState "CA")
        [PKIOp.issue ⟨"CN=a", 7, true⟩ "a" 365 0 5]) ⟨"CN=x", 8, true⟩ "a" 30 400 9).2.certificates
        "a").map fun c => c.certificate.serialNumber) = some 9 :=
  ⟨by decide, renew_id_deterministic_and_overwrites _ "a" "CN=x" 8 30 400 9
    { certificate := { serialNumber := 5, subject := "CN=a", issuer := "CA",
                          publicKey := 7, notBefore := 0, notAfter := 365 },
         status := "active", issuedAt := 0, expiresAt := 365, subject := "CN=a",
         renewedFrom := none, supersededBy := none,
         revokedAt := none, revocationReason := none } (by decide)⟩

/-- C3 (confirmed): revoking a certificate whose stored status is
`"revoked"` returns the already-revoked failure and returns the state
unchanged — status, revocation timestamp, revocation reason and the audit
log are all exactly as before, so no second revocation entry is appended. -/
theorem revoke_revoked_rejects_and_preserves_state (st : PKIState)
    (certId reason : String) (now : Int)
    (h : statusOf st certId = some "revoked") :
    revokeCertificate st certId reason now = (.alreadyRevoked, st) := by
  unfold statusOf at h
  cases hl : dictLookup st.certificates certId with
  | none => rw [hl] at h; cases h
  | some cd =>
    rw [hl] at h
    have h2 : cd.status = "revoked" := Option.some.inj h
    simp [revokeCertificate, hl, h2]

/-- Witness for the C3 theorem at a concrete registry with a revoked
record. -/
theorem revoke_revoked_rejects_and_preserves_state_witness :
    statusOf (runOps (initState "CA")
        [PKIOp.issue ⟨"CN=a", 1, true⟩ "a" 365 0 1,
         PKIOp.revoke "a" "compromise" 1]) "a" = some "revoked" ∧
    revokeCertificate (runOps (initState "CA")
        [PKIOp.issue ⟨"CN=a", 1, true⟩ "a" 365 0 1,
         PKIOp.revoke "a" "compromise" 1]) "a" "again" 2 =
      (.alreadyRevoked, runOps (initState "CA")
        [PKIOp.issue ⟨"CN=a", 1, true⟩ "a" 365 0 1,
         PKIOp.revoke "a" "compromise" 1]) :=
  ⟨by decide, revoke_revoked_rejects_and_preserves_state _ "a" "again" 2 (by decide)⟩

/-- C4 (confirmed): after a successful renewal of a stored identifier, the
old record is `"superseded"` with forward reference to old-id +
`"_renewed"`, the new record's backward reference is the old identifier,
and the new record's certificate carries the old certificate's subject and
public key. -/
theorem renew_links_and_copies_subject_key (st : PKIState) (certId : String)
    (d now : Int) (s : Nat) (cd : CertData)
    (h : dictLookup st.certificates certId = some cd) :
    statusOf (renewCertificate st certId d now s).2 certId = some "superseded" ∧
    ((dictLookup (renewCertificate st certId d now s).2.certificates certId).map
      fun c => c.supersededBy) = some (some (certId ++ "_renewed")) ∧
    ((dictLookup (renewCertificate st certId d now s).2.certificates
        (certId ++ "_renewed")).map
      fun c => (c.renewedFrom, c.certificate.subject, c.certificate.publicKey)) =
      some (some certId, cd.certificate.subject, cd.certificate.publicKey) := by
  have hne : certId ≠ certId ++ "_renewed" := string_ne_append_renewed certId
  refine ⟨?_, ?_, ?_⟩
  · simp only [renewCertificate, h, statusOf]
    rw [dictLookup_dictInsert_self]
    rfl
  · simp only [renewCertificate, h]
    rw [dictLookup_dictInsert_self]
    rfl
  · simp only [renewCertificate, h]
    rw [dictLookup_dictInsert_ne _ _ _ _ (Ne.symm hne), dictLookup_dictInsert_self]
    rfl

/-- Witness for the C4 theorem at a concrete registry. -/
theorem renew_links_and_copies_subject_key_witness :
    dictLookup (runOps (initState "CA")
        [PKIOp.issue ⟨"CN=a", 7, true⟩ "a" 365 0 5]).certificates "a" =
      some { certificate := { serialNumber := 5, subject := "CN=a", issuer := "CA",
                              publicKey := 7, notBefore := 0, notAfter := 365 },
             status := "active", issuedAt := 0, expiresAt := 365, subject := "CN=a",
             renewedFrom := none, supersededBy := none,
             revokedAt := none, revocationReason := none } ∧
    statusOf (renewCertificate (runOps (initState "CA")
        [PKIOp.issue ⟨"CN=a", 7, true⟩ "a" 365 0 5]) "a" 180 400 9).2 "a" =
      some "superseded" ∧
    ((dictLookup (renewCertificate (runOps (initState "CA")
        [PKIOp.issue ⟨"CN=a", 7, true⟩ "a" 365 0 5]) "a" 180 400 9).2.certificates "a").map
      fun c => c.supersededBy) = some (some ("a" ++ "_renewed")) ∧
    ((dictLookup (renewCertificate (runOps (initState "CA")
        [PKIOp.issue ⟨"CN=a", 7, true⟩ "a" 365 0 5]) "a" 180 400 9).2.certificates
        ("a" ++ "_renewed")).map
      fun c => (c.renewedFrom, c.certificate.subject, c.certificate.publicKey)) =
      some (some "a", "CN=a", 7) :=
  ⟨by decide, renew_links_and_copies_subject_key _ "a" 180 400 9
    { certificate := { serialNumber := 5, subject := "CN=a", issuer := "CA",
                          publicKey := 7, notBefore := 0, notAfter := 365 },
         status := "active", issuedAt := 0, expiresAt := 365, subject := "CN=a",
         renewedFrom := none, supersededBy := none,
         revokedAt := none, revocationReason := none } (by decide)⟩

/-- C6 (confirmed): a CSR whose self-signature does not verify makes
issuance fail with the invalid-signature error and leaves the state — both
the certificate store and the audit log — exactly unchanged; a CSR that
verifies yields a certificate whose subject is the CSR subject, whose
issuer is the CA identity, and whose validity window is
`[now, now + validity_days]`, both in the returned result and in the
stored record. -/
theorem issue_signature_gate_and_issued_fields (st : PKIState)
    (subj : String) (pk : Nat) (certId : String) (d now : Int) (s : Nat) :
    issueCertificate st ⟨subj, pk, false⟩ certId d now s = (.invalidSignature, st) ∧
    (issueCertificate st ⟨subj, pk, true⟩ certId d now s).1 =
      IssueResult.ok certId s subj st.caSubject now (now + d) ∧
    ((dictLookup (issueCertificate st ⟨subj, pk, true⟩ certId d now s).2.certificates
        certId).map
      fun c => (c.certificate.subject, c.certificate.issuer,
                c.certificate.notBefore, c.certificate.notAfter)) =
      some (subj, st.caSubject, now, now + d) := by
  refine ⟨by simp [issueCertificate], by simp [issueCertificate], ?_⟩
  simp only [issueCertificate,
    if_neg (by simp : ¬ (⟨subj, pk, true⟩ : CSR).sigValid = false)]
  rw [dictLookup_dictInsert_self]
  rfl

/-- C7 counterexample: a registry holding one `"active"` record whose
`not_after` (day 1) lies before the current time (day 5) — the claim says
listing with the `"expired"` filter returns that record, but the code
compares the stored status string against `"expired"` and returns the
empty list. -/
theorem expired_filter_misses_expired_active_record :
    (listCertificates (runOps (initState "CA")
        [PKIOp.issue ⟨"CN=a", 1, true⟩ "a" 1 0 1]) "expired").1 = [] ∧
    statusOf (runOps (initState "CA")
        [PKIOp.issue ⟨"CN=a", 1, true⟩ "a" 1 0 1]) "a" = some "active" ∧
    ((dictLookup (runOps (initState "CA")
        [PKIOp.issue ⟨"CN=a", 1, true⟩ "a" 1 0 1]).certificates "a").map
      fun cd => cd.certificate.notAfter) = some 1 := by
  decide

/-- C7 (amended): `list_certificates` never mutates any stored status, and
`"Expired"` is never a stored status value; but the `"expired"` filter
performs no read-time classification — it compares the stored status
string against `"expired"`, which never matches, so it returns the empty
list in every reachable registry state. -/
theorem list_expired_empty_and_read_only (ca : String) (ops : List PKIOp)
    (st : PKIState) (filter : String) :
    (listCertificates (runOps (initState ca) ops) "expired").1 = [] ∧
    (listCertificates st filter).2 = st :=
  ⟨listCertificates_expired_of_noExpired _
    (noExpiredStored_runOps ops _
      (fun p hp => absurd hp (List.not_mem_nil p))), rfl⟩

/-- C5 counterexample: under the default policy, evaluating with only
`validity_days = 100` supplied is non-compliant (the required-organization
rule fires) although 100 lies within the configured bounds 1..825. -/
theorem default_policy_bounds_iff_fails :
    (validateCertificatePolicy defaultPolicies 100 none none none none
        none).compliant = false ∧
    ¬ ((100 : Int) < defaultPolicies.certificate.minValidityDays ∨
       (100 : Int) > defaultPolicies.certificate.maxValidityDays) := by
  decide

/-- C5 (amended): when the naming policy requires neither organization nor
country, evaluating with only `validity_days = d` supplied is non-compliant
exactly when `d` breaches a validity bound; the two bound checks run
independently, the max-bound violation being present iff `d` exceeds the
maximum and the min-bound violation iff `d` is below the minimum, so both
can fire together. Under the default policy the organization requirement
also fires, so the equivalence needs the naming requirements off. -/
theorem cert_policy_validity_bounds_iff (pol : Policies) (d : Int)
    (hOrg : pol.naming.requireOrganization = false)
    (hCty : pol.naming.requireCountry = false) :
    ((validateCertificatePolicy pol d none none none none none).compliant = false ↔
      d < pol.certificate.minValidityDays ∨ d > pol.certificate.maxValidityDays) ∧
    (Violation.validityExceedsMax d pol.certificate.maxValidityDays ∈
      (validateCertificatePolicy pol d none none none none none).violations ↔
      d > pol.certificate.maxValidityDays) ∧
    (Violation.validityBelowMin d pol.certificate.minValidityDays ∈
      (validateCertificatePolicy pol d none none none none none).violations ↔
      d < pol.certificate.minValidityDays) := by
  simp only [validateCertificatePolicy, hOrg, hCty, strTruthy, listTruthy]
  by_cases hmax : d > pol.certificate.maxValidityDays <;>
    by_cases hmin : d < pol.certificate.minValidityDays <;>
      simp_all

/-- Witness for the amended C5 theorem: organization and country not
required, `d = 900` above the maximum 825. -/
theorem cert_policy_validity_bounds_iff_witness :
    policiesNoNamingReq.naming.requireOrganization = false ∧
    policiesNoNamingReq.naming.requireCountry = false ∧
    ((validateCertificatePolicy policiesNoNamingReq
        900 none none none none none).compliant = false ↔
      (900 : Int) < policiesNoNamingReq.certificate.minValidityDays ∨
      (900 : Int) > policiesNoNamingReq.certificate.maxValidityDays) :=
  ⟨rfl, rfl, (cert_policy_validity_bounds_iff policiesNoNamingReq 900 rfl rfl).1⟩

/-- C8 counterexample: two calls with the same `not_valid_after` timestamp
(day 100) evaluated at different current times (day 0 and day 200) return
different outputs — `"valid"` in the first call and `"expired"` in the
second; the output depends on the evaluation time, not only on the
timestamp argument. -/
theorem check_expiry_differs_across_call_times :
    (checkCertificateExpiry defaultPolicies 100 0).status = "valid" ∧
    (checkCertificateExpiry defaultPolicies 100 200).status = "expired" := by
  decide

/-- C8 (amended): `check_certificate_expiry` is pure with respect to stored
state — it returns the plugin state unchanged — and its output is fully
determined by the renewal warning window of the configuration together
with the timestamp argument and the evaluation time: two calls agreeing on
those agree, whatever else (violation log, stores) differs. Two calls at
different evaluation times may disagree. -/
theorem check_expiry_pure_and_config_determined (ps1 ps2 : PolicyState)
    (t now : Int)
    (h : ps1.policies.lifecycle.renewalWarningDays =
         ps2.policies.lifecycle.renewalWarningDays) :
    (checkCertificateExpiryOp ps1 t now).2 = ps1 ∧
    (checkCertificateExpiryOp ps1 t now).1 = (checkCertificateExpiryOp ps2 t now).1 := by
  refine ⟨rfl, ?_⟩
  simp only [checkCertificateExpiryOp, checkCertificateExpiry, h]

/-- Witness for the amended C8 theorem: two plugin states with different
violation logs, equal warning windows. -/
theorem check_expiry_pure_and_config_determined_witness :
    ({ policies := defaultPolicies, violations := [] } :
        PolicyState).policies.lifecycle.renewalWarningDays =
      ({ policies := defaultPolicies, violations :=
          [{ timestamp := 0, vtype := "certificate",
             violations := [Violation.organizationRequired] }] } :
        PolicyState).policies.lifecycle.renewalWarningDays ∧
    (checkCertificateExpiryOp { policies := defaultPolicies, violations := [] }
        100 0).2 = { policies := defaultPolicies, violations := [] } ∧
    (checkCertificateExpiryOp { policies := defaultPolicies, violations := [] }
        100 0).1 =
      (checkCertificateExpiryOp { policies := defaultPolicies, violations :=
          [{ timestamp := 0, vtype := "certificate",
             violations := [Violation.organizationRequired] }] } 100 0).1 :=
  ⟨rfl, (check_expiry_pure_and_config_determined _ _ 100 0 rfl).1,
        (check_expiry_pure_and_config_determined _ _ 100 0 rfl).2⟩

/-- C9 (confirmed): an RSA key size below the configured minimum emits
exactly one size violation — the below-minimum one — even when that size
is also outside the allowed discrete size set; the not-in-allowed-sizes
violation can only ever fire for a key size at or above the minimum. -/
theorem rsa_below_min_emits_single_size_violation (pol : Policies) (k : Int)
    (h : k < pol.keyGeneration.rsaMinKeySize) :
    ((validateKeyPolicy pol "RSA" (some k) none).violations.filter
        Violation.aboutKeySize) =
      [Violation.rsaKeySizeBelowMin k pol.keyGeneration.rsaMinKeySize] ∧
    ∀ (alg : String) (ks : Option Int) (cv : Option String) (k2 : Int),
      Violation.rsaKeySizeNotAllowed k2 ∈ (validateKeyPolicy pol alg ks cv).violations →
      pol.keyGeneration.rsaMinKeySize ≤ k2 := by
  constructor
  · by_cases hin : "RSA" ∈ pol.keyGeneration.allowedAlgorithms <;>
      simp [validateKeyPolicy, hin, h, Violation.aboutKeySize]
  · intro alg ks cv k2 hmem
    by_cases ha : alg = "RSA"
    · subst ha
      cases ks with
      | none =>
        by_cases hin : "RSA" ∈ pol.keyGeneration.allowedAlgorithms <;>
          simp [validateKeyPolicy, hin] at hmem
      | some k3 =>
        by_cases hin : "RSA" ∈ pol.keyGeneration.allowedAlgorithms <;>
          by_cases hlt : k3 < pol.keyGeneration.rsaMinKeySize <;>
            by_cases hal : k3 ∈ pol.keyGeneration.rsaAllowedSizes <;>
              simp [validateKeyPolicy, hin, hlt, hal] at hmem <;>
                omega
    · cases cv with
      | none =>
        by_cases hin : alg ∈ pol.keyGeneration.allowedAlgorithms <;>
          by_cases he : alg = "ECC" <;>
            simp [validateKeyPolicy, hin, ha, he] at hmem
      | some c =>
        by_cases hin : alg ∈ pol.keyGeneration.allowedAlgorithms <;>
          by_cases he : alg = "ECC" <;>
            by_cases hc : c ∈ pol.keyGeneration.eccAllowedCurves <;>
              simp [validateKeyPolicy, hin, ha, he, hc] at hmem

/-- Witness for the C9 theorem: RSA 1024 under the default minimum 2048. -/
theorem rsa_below_min_emits_single_size_violation_witness :
    (1024 : Int) < defaultPolicies.keyGeneration.rsaMinKeySize ∧
    ((validateKeyPolicy defaultPolicies "RSA" (some 1024) none).violations.filter
        Violation.aboutKeySize) =
      [Violation.rsaKeySizeBelowMin 1024 defaultPolicies.keyGeneration.rsaMinKeySize] :=
  ⟨by decide,
   (rsa_below_min_emits_single_size_violation defaultPolicies 1024 (by decide)).1⟩

/-- C10 counterexample: on a two-entry violation log, `limit = -1` — not a
positive limit — still truncates the result to the most recent entry,
because any nonzero value passes the truthiness test and is sliced. -/
theorem negative_limit_truncates_most_recent :
    (listViolations { policies := defaultPolicies, violations :=
        [{ timestamp := 0, vtype := "certificate", violations := [] },
         { timestamp := 1, vtype := "certificate", violations := [] }] }
        (-1)).violations =
      [{ timestamp := 1, vtype := "certificate", violations := [] }] ∧
    ({ policies := defaultPolicies, violations :=
        [{ timestamp := 0, vtype := "certificate", violations := [] },
         { timestamp := 1, vtype := "certificate", violations := [] }] } :
      PolicyState).violations.length = 2 := by
  decide

/-- C10 (amended): `list_violations` and `list_operations` test the limit
for truthiness, so `limit = 0` returns the entire recorded list; a
positive limit `n + 1` truncates to the most recent `n + 1` entries; and a
negative limit `-(n + 1)` also truncates, dropping the first `n + 1`
entries. -/
theorem list_limit_slicing (ps : PolicyState) (cs : CryptoState) (n : Nat) :
    (listViolations ps 0).violations = ps.violations ∧
    (listOperations cs 0).operations = cs.operationLog ∧
    (listViolations ps ((n : Int) + 1)).violations =
      ps.violations.drop (ps.violations.length - (n + 1)) ∧
    (listOperations cs ((n : Int) + 1)).operations =
      cs.operationLog.drop (cs.operationLog.length - (n + 1)) ∧
    (listViolations ps (-((n : Int) + 1))).violations =
      ps.violations.drop (n + 1) ∧
    (listOperations cs (-((n : Int) + 1))).operations =
      cs.operationLog.drop (n + 1) := by
  have hp : ∀ m : Nat, ((m : Int) + -((n : Int) + 1)).toNat = m - (n + 1) := by
    intro m; omega
  have hq : (((n : Int) + 1)).toNat = n + 1 := by omega
  refine ⟨by simp [listViolations], by simp [listOperations], ?_, ?_, ?_, ?_⟩
  · rw [listViolations, if_pos (by omega : ((n : Int) + 1) ≠ 0)]
    rw [pySliceFrom, if_neg (by omega : ¬ (0 : Int) ≤ -((n : Int) + 1))]
    rw [hp]
  · rw [listOperations, if_pos (by omega : ((n : Int) + 1) ≠ 0)]
    rw [pySliceFrom, if_neg (by omega : ¬ (0 : Int) ≤ -((n : Int) + 1))]
    rw [hp]
  · rw [listViolations, if_pos (by omega : (-((n : Int) + 1) : Int) ≠ 0),
      neg_neg, pySliceFrom, if_pos (by omega : (0 : Int) ≤ (n : Int) + 1)]
    rw [hq]
  · rw [listOperations, if_pos (by omega : (-((n : Int) + 1) : Int) ≠ 0),
      neg_neg, pySliceFrom, if_pos (by omega : (0 : Int) ≤ (n : Int) + 1)]
    rw [hq]

end CryptoAgent
